import Mathlib

/-!
A shallow embedding of `src/summarizer_app.py`.

Python strings are modelled as lists of Unicode code points (`PyStr`),
bytes as `Fin 256`.  The Streamlit uploaded file is a named in-memory byte
stream with a read position, since `read()` consumes the stream.  The
third-party libraries (PyPDF2, python-docx, newspaper3k,
youtube_transcript_api, the OpenAI client) are modelled as parameters:
the PDF/DOCX extractors as functions on the uploaded file, the network
calls as functions returning an explicit outcome type whose error
constructors stand for the exceptions the Python code catches.
-/

namespace SummarizerApp

/-- Python `str` values: a finite sequence of Unicode code points. -/
abbrev PyStr := List Char

/-- A single byte of a `bytes` object. -/
abbrev Byte := Fin 256

/-- ASCII whitespace as stripped by Python `str.strip()` (the model
restricts attention to the ASCII range). -/
def pyIsSpace (c : Char) : Bool :=
  c = ' ' || c = '\t' || c = '\n' || c = '\r' || c = '\x0b' || c = '\x0c'

/-- Python `str.strip()`: drop leading and trailing whitespace. -/
def pyStrip (s : PyStr) : PyStr :=
  ((s.dropWhile pyIsSpace).reverse.dropWhile pyIsSpace).reverse

/-- Leftmost occurrence of `sep` in `l`: `some (b, a)` with
`l = b ++ sep ++ a` and `sep` not occurring in `b` or straddling it. -/
def findSep (sep : List Char) : List Char → Option (List Char × List Char)
  | [] => none
  | x :: xs =>
    if sep.isPrefixOf (x :: xs) then some ([], (x :: xs).drop sep.length)
    else (findSep sep xs).map fun p => (x :: p.1, p.2)

theorem findSep_length {sep : List Char} (hs : sep ≠ []) :
    ∀ {l b a : List Char}, findSep sep l = some (b, a) → a.length < l.length := by
  intro l
  induction l with
  | nil => intro b a h; simp [findSep] at h
  | cons x xs ih =>
    intro b a h
    by_cases hp : sep.isPrefixOf (x :: xs)
    · simp only [findSep, if_pos hp, Option.some.injEq, Prod.mk.injEq] at h
      obtain ⟨-, ha⟩ := h
      subst ha
      have h1 : 1 ≤ sep.length := by
        cases sep with
        | nil => exact absurd rfl hs
        | cons s ss => simp
      simp only [List.length_drop, List.length_cons]
      omega
    · simp only [findSep, if_neg hp, Option.map_eq_some'] at h
      obtain ⟨⟨b', a'⟩, hfs, heq⟩ := h
      simp only [Prod.mk.injEq] at heq
      obtain ⟨-, ha⟩ := heq
      subst ha
      have := ih hfs
      simp only [List.length_cons]
      omega

/-- Python `str.split(sep)` for a non-empty separator: split at every
non-overlapping occurrence of `sep`, scanning left to right, keeping
empty pieces.  (Python raises on an empty separator; the guard value for
that case is never used by the embedding.) -/
def pySplit (sep : List Char) (l : List Char) : List (List Char) :=
  if hs : sep = [] then [l]
  else
    match hf : findSep sep l with
    | none => [l]
    | some (b, a) => b :: pySplit sep a
termination_by l.length
decreasing_by exact findSep_length hs hf

/-- Outcome of one handling of the Summarize button. -/
inductive ClickOutcome
  | warned (msg : PyStr)
  | summarized (text : PyStr)
deriving DecidableEq

/-- Sentinel marker tested with `startswith` by the callers. -/
def extractorTag : PyStr := "[Extractor".data

/-- Sentinel for an article page with no extractable text. -/
def noTextSentinel : PyStr :=
  "[Extractor: No text found. Try downloading and uploading the PDF instead.]".data

/-- Sentinel for a failed download or parse of a webpage. -/
def failedScrapeSentinel : PyStr :=
  "[Extractor: Failed to scrape. Try downloading and uploading the PDF instead.]".data

/-- Sentinel for an unrecognised YouTube URL shape. -/
def invalidYoutubeSentinel : PyStr := "[Extractor: Invalid YouTube URL format.]".data

/-- Sentinel for an empty transcript. -/
def emptyTranscriptSentinel : PyStr := "[Extractor: Transcript not found or empty.]".data

/-- Sentinel for the `TranscriptsDisabled` exception. -/
def captionsDisabledSentinel : PyStr :=
  "[Extractor: Captions are disabled for this video.]".data

/-- Sentinel for the `NoTranscriptFound` exception. -/
def noTranscriptSentinel : PyStr :=
  "[Extractor: No transcript available for this video.]".data

/-- Sentinel for any other exception during the transcript fetch. -/
def failedTranscriptSentinel : PyStr := "[Extractor: Failed to get transcript.]".data

/-- A Streamlit uploaded file: its name and an in-memory byte stream with
a read position (`st.file_uploader` yields a `BytesIO`-like object whose
`read()` consumes from the current position; a fresh upload starts at 0). -/
structure UploadedFile where
  name : PyStr
  content : List Byte
  pos : Nat

/-- Python `file.read()`: return all bytes from the current position and
leave the position at the end of the stream. -/
def UploadedFile.read (f : UploadedFile) : List Byte × UploadedFile :=
  (f.content.drop f.pos, { f with pos := f.content.length })

/-- Python `bytes.decode("latin-1")`: every byte maps to the code point of
the same value; this never fails. -/
def latin1Decode (bs : List Byte) : PyStr := bs.map fun b => Char.ofNat b.val

/-- Python `bytes.decode("utf-8")` (strict): `some` of the decoded code
points on valid UTF-8 input, `none` where CPython raises
`UnicodeDecodeError` (truncated sequences, stray continuation bytes,
overlong forms, surrogates, values above U+10FFFF). -/
def utf8Decode : List Byte → Option PyStr
  | [] => some []
  | b0 :: rest =>
    let n0 := b0.val
    if n0 < 0x80 then
      (utf8Decode rest).map fun cs => Char.ofNat n0 :: cs
    else if n0 < 0xC2 then none
    else if n0 < 0xE0 then
      match rest with
      | [] => none
      | b1 :: rest1 =>
        if 0x80 ≤ b1.val ∧ b1.val < 0xC0 then
          (utf8Decode rest1).map fun cs =>
            Char.ofNat ((n0 - 0xC0) * 0x40 + (b1.val - 0x80)) :: cs
        else none
    else if n0 < 0xF0 then
      match rest with
      | b1 :: b2 :: rest2 =>
        let lo1 : Nat := if n0 = 0xE0 then 0xA0 else 0x80
        let hi1 : Nat := if n0 = 0xED then 0xA0 else 0xC0
        if (lo1 ≤ b1.val ∧ b1.val < hi1) ∧ 0x80 ≤ b2.val ∧ b2.val < 0xC0 then
          (utf8Decode rest2).map fun cs =>
            Char.ofNat ((n0 - 0xE0) * 0x1000 + (b1.val - 0x80) * 0x40 + (b2.val - 0x80)) :: cs
        else none
      | _ => none
    else if n0 < 0xF5 then
      match rest with
      | b1 :: b2 :: b3 :: rest3 =>
        let lo1 : Nat := if n0 = 0xF0 then 0x90 else 0x80
        let hi1 : Nat := if n0 = 0xF4 then 0x90 else 0xC0
        if (lo1 ≤ b1.val ∧ b1.val < hi1) ∧ (0x80 ≤ b2.val ∧ b2.val < 0xC0) ∧
            0x80 ≤ b3.val ∧ b3.val < 0xC0 then
          (utf8Decode rest3).map fun cs =>
            Char.ofNat ((n0 - 0xF0) * 0x40000 + (b1.val - 0x80) * 0x1000 +
              (b2.val - 0x80) * 0x40 + (b3.val - 0x80)) :: cs
        else none
      | _ => none
    else none

/-- Lines 51-55: the `.txt` branch of `extract_file_text`.  Note that it
calls `uploaded_file.read()` a second time inside the `except` handler,
on the stream already consumed by the first `read()`. -/
def readTxt (f : UploadedFile) : PyStr :=
  let r := f.read
  match utf8Decode r.1 with
  | some s => s
  | none => latin1Decode r.2.read.1

/-- Lines 50-65: `extract_file_text`, dispatching on the file-name
suffix; the PDF and DOCX library extractors are parameters. -/
def extract_file_text (pdfExtract docxExtract : UploadedFile → PyStr)
    (f : UploadedFile) : PyStr :=
  if ".txt".data <:+ f.name then readTxt f
  else if ".pdf".data <:+ f.name then pdfExtract f
  else if ".docx".data <:+ f.name then docxExtract f
  else []

/-- Outcome of `newspaper.Article(url).download(); .parse()`: the
article's `text` attribute on success, or an exception. -/
inductive ArticleResult
  | ok (text : PyStr)
  | exn
deriving DecidableEq

/-- Lines 70-81: `extract_text_from_url`, with the newspaper3k library
call as a parameter. -/
def extract_text_from_url (article : PyStr → ArticleResult) (url : PyStr) : PyStr :=
  match article url with
  | .ok t =>
    let text := pyStrip t
    if text = [] then noTextSentinel else text
  | .exn => failedScrapeSentinel

/-- Outcome of `YouTubeTranscriptApi.get_transcript`: the `text` field of
each entry on success, or one of the exceptions the code catches. -/
inductive TranscriptResult
  | ok (entries : List PyStr)
  | transcriptsDisabled
  | noTranscriptFound
  | otherError
deriving DecidableEq

/-- Lines 88-92: the video-id parse of `extract_text_from_youtube`;
`none` is Python's `None`. -/
def ytVideoId (url : PyStr) : Option PyStr :=
  if "youtube.com/watch?v=".data <:+: url then
    some ((pySplit "&".data ((pySplit "v=".data url).getLastD [])).headD [])
  else if "youtu.be/".data <:+: url then
    some ((pySplit "?".data ((pySplit "/".data url).getLastD [])).headD [])
  else none

/-- Lines 86-108: `extract_text_from_youtube`, with the transcript fetch
as a parameter; the error constructors of `TranscriptResult` stand for
the exceptions caught by the handlers. -/
def extract_text_from_youtube (getTranscript : PyStr → TranscriptResult)
    (url : PyStr) : PyStr :=
  match ytVideoId url with
  | none => invalidYoutubeSentinel
  | some vid =>
    if vid = [] then invalidYoutubeSentinel
    else
      match getTranscript vid with
      | .ok entries =>
        let text := pyStrip (List.intercalate [' '] entries)
        if text = [] then emptyTranscriptSentinel else text
      | .transcriptsDisabled => captionsDisabledSentinel
      | .noTranscriptFound => noTranscriptSentinel
      | .otherError => failedTranscriptSentinel

/-- Line 158: keep the scraped text only when it is non-empty and not an
extractor sentinel. -/
def clean_url_text (url_text : PyStr) : PyStr :=
  if url_text ≠ [] ∧ ¬ extractorTag <+: url_text then url_text else []

/-- Line 159: keep the transcript only when it is non-empty and not an
extractor sentinel. -/
def clean_youtube_text (youtube_text : PyStr) : PyStr :=
  if youtube_text ≠ [] ∧ ¬ extractorTag <+: youtube_text then youtube_text else []

/-- Python `or` on two strings: the left operand when truthy (non-empty),
otherwise the right operand. -/
def pyOr (a b : PyStr) : PyStr := if a = [] then b else a

/-- Lines 161-166: the chained `or` choosing the text to summarize. -/
def final_input (file_text clean_url clean_yt text_input : PyStr) : PyStr :=
  pyOr (pyOr (pyOr file_text clean_url) clean_yt) text_input

/-- Lines 169-180: handling of one Summarize click.  `SummarizerPrompt`
has a single `str` field, so constructing it from a `str` never raises
`ValidationError`; the summarization call itself is external and its
argument is what the model records. -/
def summarizeClick (final : PyStr) : ClickOutcome :=
  if pyStrip final = [] then .warned "Please provide some input!".data
  else .summarized final

/-- Spec-side: the first non-empty string of a list, or the empty string. -/
def firstNonEmpty : List PyStr → PyStr
  | [] => []
  | s :: rest => if s ≠ [] then s else firstNonEmpty rest

/-- Spec-side: the suffix after the last occurrence of `c` (the whole
string when `c` does not occur). -/
def afterLast (c : Char) (l : PyStr) : PyStr := (l.reverse.takeWhile (· != c)).reverse

/-- Spec-side: the prefix before the first occurrence of `c` (the whole
string when `c` does not occur). -/
def beforeFirst (c : Char) (l : PyStr) : PyStr := l.takeWhile (· != c)

/-! Basic facts about `pySplit` on a single-character separator. -/

theorem pySplit_eq_of_none {sep l : List Char} (hs : sep ≠ [])
    (hf : findSep sep l = none) : pySplit sep l = [l] := by
  rw [pySplit]
  split
  · rfl
  · split
    · rfl
    · rename_i b a h
      rw [hf] at h
      cases h

theorem pySplit_eq_of_some {sep l b a : List Char} (hs : sep ≠ [])
    (hf : findSep sep l = some (b, a)) : pySplit sep l = b :: pySplit sep a := by
  rw [pySplit]
  split
  · exact absurd (by assumption) hs
  · split
    · rename_i h
      rw [hf] at h
      cases h
    · rename_i b' a' h
      rw [hf] at h
      simp only [Option.some.injEq, Prod.mk.injEq] at h
      obtain ⟨hb, ha⟩ := h
      rw [hb, ha]

theorem findSep_cons_self (c : Char) (xs : List Char) :
    findSep [c] (c :: xs) = some ([], xs) := by
  simp [findSep, List.isPrefixOf]

theorem findSep_cons_ne {x c : Char} (h : x ≠ c) (xs : List Char) :
    findSep [c] (x :: xs) = (findSep [c] xs).map fun p => (x :: p.1, p.2) := by
  have : ¬ [c].isPrefixOf (x :: xs) := by
    simp [List.isPrefixOf]
    exact fun hcx => absurd hcx.symm h
  simp [findSep, this]

theorem pySplit_ne_nil (sep l : List Char) : pySplit sep l ≠ [] := by
  rw [pySplit]
  split
  · simp
  · split
    · simp
    · simp

theorem pySplit_cons_self (c : Char) (xs : List Char) :
    pySplit [c] (c :: xs) = [] :: pySplit [c] xs := by
  exact pySplit_eq_of_some (by simp) (findSep_cons_self c xs)

theorem pySplit_cons_ne {x c : Char} (h : x ≠ c) (xs : List Char) :
    pySplit [c] (x :: xs) =
      (x :: (pySplit [c] xs).headD []) :: (pySplit [c] xs).tail := by
  cases hf : findSep [c] xs with
  | none =>
    have h1 : findSep [c] (x :: xs) = none := by
      rw [findSep_cons_ne h, hf]; rfl
    rw [pySplit_eq_of_none (by simp) h1, pySplit_eq_of_none (by simp) hf]
    rfl
  | some p =>
    obtain ⟨b, a⟩ := p
    have h1 : findSep [c] (x :: xs) = some (x :: b, a) := by
      rw [findSep_cons_ne h, hf]; rfl
    rw [pySplit_eq_of_some (by simp) h1, pySplit_eq_of_some (by simp) hf]
    rfl

theorem pySplit_headD (c : Char) (l : List Char) :
    (pySplit [c] l).headD [] = l.takeWhile (· != c) := by
  induction l with
  | nil =>
    rw [pySplit_eq_of_none (by simp) (by rfl)]
    rfl
  | cons x xs ih =>
    by_cases hx : x = c
    · subst hx
      rw [pySplit_cons_self]
      simp [List.takeWhile_cons]
    · rw [pySplit_cons_ne hx]
      simp only [List.headD_cons]
      rw [List.takeWhile_cons_of_pos (by simp [hx]), ih]

theorem headD_append_of_ne_nil {S : List (List Char)} (h : S ≠ [])
    (u : List (List Char)) : (S ++ u).headD [] = S.headD [] := by
  cases S with
  | nil => exact absurd rfl h
  | cons a t => rfl

theorem pySplit_append_single (c y : Char) (l : List Char) :
    pySplit [c] (l ++ [y]) =
      if y = c then pySplit [c] l ++ [[]]
      else (pySplit [c] l).dropLast ++ [(pySplit [c] l).getLastD [] ++ [y]] := by
  induction l with
  | nil =>
    have P0 : pySplit [c] ([] : List Char) = [[]] :=
      pySplit_eq_of_none (by simp) rfl
    by_cases hy : y = c
    · subst hy
      rw [if_pos rfl]
      simp only [List.nil_append]
      rw [pySplit_cons_self, P0]
      rfl
    · rw [if_neg hy]
      simp only [List.nil_append]
      rw [pySplit_cons_ne hy, P0]
      rfl
  | cons x xs ih =>
    have hS : pySplit [c] xs ≠ [] := pySplit_ne_nil [c] xs
    by_cases hx : x = c
    · subst hx
      simp only [List.cons_append]
      rw [pySplit_cons_self, ih, pySplit_cons_self]
      by_cases hy : y = x
      · rw [if_pos hy, if_pos hy]
        simp
      · rw [if_neg hy, if_neg hy]
        rw [List.dropLast_cons_of_ne_nil hS, List.getLastD_cons]
        simp
    · simp only [List.cons_append]
      rw [pySplit_cons_ne hx, ih, pySplit_cons_ne hx]
      by_cases hy : y = c
      · rw [if_pos hy, if_pos hy]
        rw [headD_append_of_ne_nil hS, List.tail_append_of_ne_nil hS]
        simp
      · rw [if_neg hy, if_neg hy]
        cases hSe : pySplit [c] xs with
        | nil => exact absurd hSe hS
        | cons s t =>
          cases t with
          | nil => simp
          | cons s2 t2 => simp [List.getLastD_cons]

theorem pySplit_getLastD (c : Char) (l : List Char) :
    (pySplit [c] l).getLastD [] = (l.reverse.takeWhile (· != c)).reverse := by
  induction l using List.reverseRecOn with
  | nil =>
    have P0 : pySplit [c] ([] : List Char) = [[]] :=
      pySplit_eq_of_none (by simp) rfl
    rw [P0]
    rfl
  | append_singleton l y ih =>
    rw [pySplit_append_single]
    by_cases hy : y = c
    · subst hy
      rw [if_pos rfl]
      rw [List.getLastD_concat]
      simp [List.takeWhile_cons]
    · rw [if_neg hy]
      rw [List.getLastD_concat]
      rw [List.reverse_append]
      simp only [List.reverse_cons, List.reverse_nil, List.nil_append,
        List.singleton_append]
      rw [List.takeWhile_cons_of_pos (by simp [hy]), List.reverse_cons, ih]

/-! Helper facts shared by several results. -/

theorem tag_prefix_sentinels :
    extractorTag <+: noTextSentinel ∧ extractorTag <+: failedScrapeSentinel ∧
    extractorTag <+: invalidYoutubeSentinel ∧ extractorTag <+: emptyTranscriptSentinel ∧
    extractorTag <+: captionsDisabledSentinel ∧ extractorTag <+: noTranscriptSentinel ∧
    extractorTag <+: failedTranscriptSentinel := by
  refine ⟨?_, ?_, ?_, ?_, ?_, ?_, ?_⟩ <;> decide

/-- C1: the final input is the first non-empty candidate in the fixed
order file text, cleaned URL text, cleaned YouTube text, pasted text, and
it is always one of the four candidates, never a merge of them. -/
theorem final_input_first_nonempty (file_text clean_url clean_yt text_input : PyStr) :
    final_input file_text clean_url clean_yt text_input =
      firstNonEmpty [file_text, clean_url, clean_yt, text_input] ∧
    final_input file_text clean_url clean_yt text_input ∈
      [file_text, clean_url, clean_yt, text_input] := by
  constructor
  · by_cases h1 : file_text = [] <;> by_cases h2 : clean_url = [] <;>
      by_cases h3 : clean_yt = [] <;> by_cases h4 : text_input = [] <;>
        simp [final_input, pyOr, firstNonEmpty, h1, h2, h3, h4]
  · by_cases h1 : file_text = [] <;> by_cases h2 : clean_url = [] <;>
      by_cases h3 : clean_yt = [] <;>
        simp [final_input, pyOr, h1, h2, h3]

/-- C6: a Summarize click whose final input strips to the empty string
warns and does not summarize; one whose stripped final input is non-empty
takes the summarization path on exactly the final input. -/
theorem summarizeClick_empty_guard (final : PyStr) :
    (pyStrip final = [] →
      summarizeClick final = .warned "Please provide some input!".data ∧
      ∀ t, summarizeClick final ≠ .summarized t) ∧
    (pyStrip final ≠ [] → summarizeClick final = .summarized final) := by
  refine ⟨fun h => ⟨?_, fun t => ?_⟩, fun h => ?_⟩ <;> simp [summarizeClick, h]

/-- The Summarize guard at two concrete inputs: whitespace-only input
warns, the input `hello` is summarized unchanged. -/
theorem summarizeClick_empty_guard_witness :
    summarizeClick " \n ".data = .warned "Please provide some input!".data ∧
    summarizeClick "hello".data = .summarized "hello".data :=
  ⟨((summarizeClick_empty_guard " \n ".data).1 (by decide)).1,
   (summarizeClick_empty_guard "hello".data).2 (by decide)⟩

/-- C9: webpage extraction never returns the empty string: the result is
an `[Extractor` sentinel, or the stripped article text, which is then
non-empty. -/
theorem url_extraction_never_empty (article : PyStr → ArticleResult) (url : PyStr) :
    extractorTag <+: extract_text_from_url article url ∨
    (extract_text_from_url article url ≠ [] ∧
      ∃ t, article url = .ok t ∧ extract_text_from_url article url = pyStrip t) := by
  cases ha : article url with
  | ok t =>
    by_cases h : pyStrip t = []
    · left
      simp only [extract_text_from_url, ha, h, if_pos]
      exact tag_prefix_sentinels.1
    · right
      refine ⟨?_, t, rfl, ?_⟩ <;> simp [extract_text_from_url, ha, h]
  | exn =>
    left
    simp only [extract_text_from_url, ha]
    exact tag_prefix_sentinels.2.1

/-- C5: a URL containing neither `youtube.com/watch?v=` nor `youtu.be/`
yields the invalid-format sentinel, whatever the transcript fetcher would
do (no fetch is attempted). -/
theorem youtube_invalid_format (getTranscript : PyStr → TranscriptResult)
    (url : PyStr) (h1 : ¬ "youtube.com/watch?v=".data <:+: url)
    (h2 : ¬ "youtu.be/".data <:+: url) :
    extract_text_from_youtube getTranscript url = invalidYoutubeSentinel := by
  have hid : ytVideoId url = none := by
    simp [ytVideoId, h1, h2]
  simp [extract_text_from_youtube, hid]

/-- The invalid-format sentinel at a concrete malformed URL, for a
fetcher whose every call would fail. -/
theorem youtube_invalid_format_witness :
    extract_text_from_youtube (fun _ => .otherError) "https://example.com/page".data =
      invalidYoutubeSentinel :=
  youtube_invalid_format (fun _ => .otherError) "https://example.com/page".data
    (by decide) (by decide)

theorem suffix_eq_of_length {s1 s2 l : List Char} (h1 : s1 <:+ l) (h2 : s2 <:+ l)
    (hlen : s1.length = s2.length) : s1 = s2 := by
  rcases Nat.le_total s1.length s2.length with hle | hle
  · exact (List.suffix_of_suffix_length_le h1 h2 hle).eq_of_length hlen
  · exact ((List.suffix_of_suffix_length_le h2 h1 hle).eq_of_length hlen.symm).symm

theorem not_txt_of_pdf {l : List Char} (h : ".pdf".data <:+ l) :
    ¬ ".txt".data <:+ l := fun ht => by
  have := suffix_eq_of_length ht h (by decide)
  exact absurd this (by decide)

theorem not_txt_of_docx {l : List Char} (h : ".docx".data <:+ l) :
    ¬ ".txt".data <:+ l := fun ht => by
  have hsub : ".txt".data <:+ ".docx".data :=
    List.suffix_of_suffix_length_le ht h (by decide)
  exact absurd hsub (by decide)

theorem not_pdf_of_docx {l : List Char} (h : ".docx".data <:+ l) :
    ¬ ".pdf".data <:+ l := fun hp => by
  have hsub : ".pdf".data <:+ ".docx".data :=
    List.suffix_of_suffix_length_le hp h (by decide)
  exact absurd hsub (by decide)

/-- C2: `extract_file_text` dispatches on the file-name suffix alone:
a `.txt` name takes the text branch, a `.pdf` name goes to the PDF
library, a `.docx` name to the DOCX library, and any other name yields
the empty string, for every behaviour of the library extractors. -/
theorem extract_file_text_dispatch (pdfExtract docxExtract : UploadedFile → PyStr)
    (f : UploadedFile) :
    (".txt".data <:+ f.name →
      extract_file_text pdfExtract docxExtract f = readTxt f) ∧
    (".pdf".data <:+ f.name →
      extract_file_text pdfExtract docxExtract f = pdfExtract f) ∧
    (".docx".data <:+ f.name →
      extract_file_text pdfExtract docxExtract f = docxExtract f) ∧
    (¬ ".txt".data <:+ f.name → ¬ ".pdf".data <:+ f.name →
      ¬ ".docx".data <:+ f.name →
      extract_file_text pdfExtract docxExtract f = []) := by
  refine ⟨fun h => ?_, fun h => ?_, fun h => ?_, fun h1 h2 h3 => ?_⟩
  · simp [extract_file_text, h]
  · simp [extract_file_text, h, not_txt_of_pdf h]
  · simp [extract_file_text, h, not_txt_of_docx h, not_pdf_of_docx h]
  · simp [extract_file_text, h1, h2, h3]

/-- The dispatch at four concrete uploads, one per branch: the libraries
are instantiated with constant strings to make the branches observable. -/
theorem extract_file_text_dispatch_witness :
    extract_file_text (fun _ => "P".data) (fun _ => "D".data)
      ⟨"a.txt".data, [(0x68 : Byte)], 0⟩ = readTxt ⟨"a.txt".data, [(0x68 : Byte)], 0⟩ ∧
    extract_file_text (fun _ => "P".data) (fun _ => "D".data)
      ⟨"a.pdf".data, [], 0⟩ = "P".data ∧
    extract_file_text (fun _ => "P".data) (fun _ => "D".data)
      ⟨"a.docx".data, [], 0⟩ = "D".data ∧
    extract_file_text (fun _ => "P".data) (fun _ => "D".data)
      ⟨"a.jpg".data, [], 0⟩ = [] :=
  ⟨(extract_file_text_dispatch _ _ _).1 (by decide),
   (extract_file_text_dispatch _ _ _).2.1 (by decide),
   (extract_file_text_dispatch _ _ _).2.2.1 (by decide),
   (extract_file_text_dispatch _ _ _).2.2.2 (by decide) (by decide) (by decide)⟩

/-- C3: a `.txt` upload whose bytes decode as UTF-8 is extracted to
exactly that decoding. -/
theorem txt_utf8_extraction (pdfExtract docxExtract : UploadedFile → PyStr)
    (f : UploadedFile) (s : PyStr) (hname : ".txt".data <:+ f.name)
    (hpos : f.pos = 0) (hdec : utf8Decode f.content = some s) :
    extract_file_text pdfExtract docxExtract f = s := by
  simp [extract_file_text, hname, readTxt, UploadedFile.read, hpos, hdec]

/-- UTF-8 extraction of a concrete two-code-point `.txt` upload whose
second code point is encoded on two bytes. -/
theorem txt_utf8_extraction_witness :
    extract_file_text (fun _ => []) (fun _ => [])
      ⟨"a.txt".data, [(0x68 : Byte), 0xC3, 0xA9], 0⟩ = "hé".data :=
  txt_utf8_extraction (fun _ => []) (fun _ => [])
    ⟨"a.txt".data, [(0x68 : Byte), 0xC3, 0xA9], 0⟩ "hé".data
    (by decide) rfl (by decide)

/-- C4 (code bug): on a `.txt` upload whose single byte `0xFF` is not
valid UTF-8, the fallback re-reads the already-consumed stream, so the
code returns the empty string, while the Latin-1 decoding of the file's
contents is the non-empty string `ÿ`. -/
theorem txt_latin1_fallback_bug :
    extract_file_text (fun _ => []) (fun _ => [])
      ⟨"a.txt".data, [(0xFF : Byte)], 0⟩ = [] ∧
    latin1Decode [(0xFF : Byte)] = "ÿ".data ∧ "ÿ".data ≠ ([] : PyStr) := by
  refine ⟨?_, ?_, ?_⟩ <;> decide

theorem ytVideoId_be {url : PyStr} (h1 : ¬ "youtube.com/watch?v=".data <:+: url)
    (h2 : "youtu.be/".data <:+: url) :
    ytVideoId url = some (beforeFirst '?' (afterLast '/' url)) := by
  unfold ytVideoId
  rw [if_neg h1, if_pos h2]
  rw [show ("/".data : List Char) = ['/'] from rfl,
    show ("?".data : List Char) = ['?'] from rfl]
  rw [pySplit_getLastD, pySplit_headD]
  rfl

/-- C10: for a URL containing `youtu.be/` but not `youtube.com/watch?v=`,
the parsed video id is the part of the URL after its last `/`, truncated
at the first `?`; when such a URL ends in `/` the id is therefore empty
and extraction returns the invalid-format sentinel. -/
theorem youtu_be_id_parse (getTranscript : PyStr → TranscriptResult) (url : PyStr)
    (h1 : ¬ "youtube.com/watch?v=".data <:+: url)
    (h2 : "youtu.be/".data <:+: url) :
    ytVideoId url = some (beforeFirst '?' (afterLast '/' url)) ∧
    (url.getLast? = some '/' →
      extract_text_from_youtube getTranscript url = invalidYoutubeSentinel) := by
  refine ⟨ytVideoId_be h1 h2, fun hl => ?_⟩
  have hafter : afterLast '/' url = [] := by
    unfold afterLast
    have hhead : url.reverse.head? = some '/' := by rw [List.head?_reverse, hl]
    cases hr : url.reverse with
    | nil => rw [hr] at hhead; cases hhead
    | cons a tl =>
      rw [hr] at hhead
      simp only [List.head?_cons, Option.some.injEq] at hhead
      subst hhead
      rw [List.takeWhile_cons_of_neg (by simp)]
      rfl
  have hvid : ytVideoId url = some [] := by
    rw [ytVideoId_be h1 h2, hafter]
    rfl
  simp [extract_text_from_youtube, hvid]

/-- The `youtu.be/` parse at a concrete URL ending in `/`: the id reduces
to the empty string and extraction reports the invalid-format sentinel. -/
theorem youtu_be_id_parse_witness :
    ytVideoId "https://youtu.be/abc/".data =
      some (beforeFirst '?' (afterLast '/' "https://youtu.be/abc/".data)) ∧
    extract_text_from_youtube (fun _ => .otherError) "https://youtu.be/abc/".data =
      invalidYoutubeSentinel :=
  ⟨(youtu_be_id_parse (fun _ => .otherError) "https://youtu.be/abc/".data
      (by decide) (by decide)).1,
   (youtu_be_id_parse (fun _ => .otherError) "https://youtu.be/abc/".data
      (by decide) (by decide)).2 (by decide)⟩

/-- C8: the YouTube extractor returns a plain string on every URL and
every fetch outcome: each caught exception and each failure shape maps to
an `[Extractor` sentinel (`TranscriptsDisabled`, `NoTranscriptFound` and
any other exception to their respective messages), and otherwise the
result is the non-empty stripped joined transcript. -/
theorem youtube_extraction_total (getTranscript : PyStr → TranscriptResult)
    (url : PyStr) :
    (extractorTag <+: extract_text_from_youtube getTranscript url ∨
      ∃ vid entries, ytVideoId url = some vid ∧ vid ≠ [] ∧
        getTranscript vid = .ok entries ∧
        extract_text_from_youtube getTranscript url =
          pyStrip (List.intercalate [' '] entries) ∧
        extract_text_from_youtube getTranscript url ≠ []) ∧
    (∀ vid, ytVideoId url = some vid → vid ≠ [] →
      (getTranscript vid = .transcriptsDisabled →
        extract_text_from_youtube getTranscript url = captionsDisabledSentinel) ∧
      (getTranscript vid = .noTranscriptFound →
        extract_text_from_youtube getTranscript url = noTranscriptSentinel) ∧
      (getTranscript vid = .otherError →
        extract_text_from_youtube getTranscript url = failedTranscriptSentinel)) := by
  cases hid : ytVideoId url with
  | none =>
    refine ⟨Or.inl ?_, fun vid h _ => Option.noConfusion h⟩
    simp only [extract_text_from_youtube, hid]
    exact tag_prefix_sentinels.2.2.1
  | some vid =>
    by_cases hv : vid = []
    · refine ⟨Or.inl ?_, fun vid' h hne => ?_⟩
      · simp only [extract_text_from_youtube, hid, hv, if_pos]
        exact tag_prefix_sentinels.2.2.1
      · exact absurd (Option.some.inj h ▸ hv) hne
    · cases ht : getTranscript vid with
      | ok entries =>
        by_cases he : pyStrip (List.intercalate [' '] entries) = []
        · refine ⟨Or.inl ?_, fun vid' h hne => ?_⟩
          · simp only [extract_text_from_youtube, hid, hv, if_neg hv, ht, he, if_pos]
            exact tag_prefix_sentinels.2.2.2.1
          · obtain rfl : vid' = vid := (Option.some.inj h).symm
            refine ⟨fun hc => ?_, fun hc => ?_, fun hc => ?_⟩ <;>
              (rw [ht] at hc; cases hc)
        · refine ⟨Or.inr ⟨vid, entries, rfl, hv, ht, ?_, ?_⟩, fun vid' h hne => ?_⟩
          · simp [extract_text_from_youtube, hid, hv, ht, he]
          · simp [extract_text_from_youtube, hid, hv, ht, he]
          · obtain rfl : vid' = vid := (Option.some.inj h).symm
            refine ⟨fun hc => ?_, fun hc => ?_, fun hc => ?_⟩ <;>
              (rw [ht] at hc; cases hc)
      | transcriptsDisabled =>
        refine ⟨Or.inl ?_, fun vid' h hne => ?_⟩
        · simp only [extract_text_from_youtube, hid, hv, if_neg hv, ht]
          exact tag_prefix_sentinels.2.2.2.2.1
        · obtain rfl : vid' = vid := (Option.some.inj h).symm
          refine ⟨fun _ => ?_, fun hc => ?_, fun hc => ?_⟩
          · simp [extract_text_from_youtube, hid, hv, ht]
          · rw [ht] at hc; cases hc
          · rw [ht] at hc; cases hc
      | noTranscriptFound =>
        refine ⟨Or.inl ?_, fun vid' h hne => ?_⟩
        · simp only [extract_text_from_youtube, hid, hv, if_neg hv, ht]
          exact tag_prefix_sentinels.2.2.2.2.2.1
        · obtain rfl : vid' = vid := (Option.some.inj h).symm
          refine ⟨fun hc => ?_, fun _ => ?_, fun hc => ?_⟩
          · rw [ht] at hc; cases hc
          · simp [extract_text_from_youtube, hid, hv, ht]
          · rw [ht] at hc; cases hc
      | otherError =>
        refine ⟨Or.inl ?_, fun vid' h hne => ?_⟩
        · simp only [extract_text_from_youtube, hid, hv, if_neg hv, ht]
          exact tag_prefix_sentinels.2.2.2.2.2.2
        · obtain rfl : vid' = vid := (Option.some.inj h).symm
          refine ⟨fun hc => ?_, fun hc => ?_, fun _ => ?_⟩
          · rw [ht] at hc; cases hc
          · rw [ht] at hc; cases hc
          · simp [extract_text_from_youtube, hid, hv, ht]

/-- The sentinel mapping at a concrete short-form URL whose transcript
fetch reports disabled captions. -/
theorem youtube_extraction_total_witness :
    extract_text_from_youtube (fun _ => .transcriptsDisabled)
      "https://youtu.be/abc".data = captionsDisabledSentinel :=
  ((youtube_extraction_total (fun _ => .transcriptsDisabled)
      "https://youtu.be/abc".data).2 "abc".data
    (by rw [ytVideoId_be (by decide) (by decide)]; decide) (by decide)).1 rfl

/-- C7: extraction failures surface as `[Extractor`-prefixed strings
rather than exceptions, and the cleaning step keeps an extraction result
only when it is non-empty and lacks that prefix, so a sentinel is cleaned
to the empty string and contributes nothing to the final-input choice. -/
theorem extractor_failures_are_sentinels (article : PyStr → ArticleResult)
    (getTranscript : PyStr → TranscriptResult) (url s f y t : PyStr) :
    (article url = .exn → extractorTag <+: extract_text_from_url article url) ∧
    (∀ txt, article url = .ok txt → pyStrip txt = [] →
      extractorTag <+: extract_text_from_url article url) ∧
    ((¬ ∃ vid entries, ytVideoId url = some vid ∧ vid ≠ [] ∧
        getTranscript vid = .ok entries ∧
        pyStrip (List.intercalate [' '] entries) ≠ []) →
      extractorTag <+: extract_text_from_youtube getTranscript url) ∧
    (extractorTag <+: s → clean_url_text s = [] ∧ clean_youtube_text s = []) ∧
    (extractorTag <+: s →
      final_input f (clean_url_text s) y t = final_input f [] y t ∧
      final_input f y (clean_youtube_text s) t = final_input f y [] t) := by
  have hclean : extractorTag <+: s →
      clean_url_text s = [] ∧ clean_youtube_text s = [] := by
    intro h
    constructor <;> simp [clean_url_text, clean_youtube_text, h]
  refine ⟨fun h => ?_, fun txt h he => ?_, fun hne => ?_, hclean, fun h => ?_⟩
  · simp only [extract_text_from_url, h]
    exact tag_prefix_sentinels.2.1
  · simp only [extract_text_from_url, h, he, if_pos]
    exact tag_prefix_sentinels.1
  · cases hid : ytVideoId url with
    | none =>
      simp only [extract_text_from_youtube, hid]
      exact tag_prefix_sentinels.2.2.1
    | some vid =>
      by_cases hv : vid = []
      · simp only [extract_text_from_youtube, hid, hv, if_pos]
        exact tag_prefix_sentinels.2.2.1
      · cases ht : getTranscript vid with
        | ok entries =>
          by_cases he : pyStrip (List.intercalate [' '] entries) = []
          · simp only [extract_text_from_youtube, hid, hv, if_neg hv, ht, he, if_pos]
            exact tag_prefix_sentinels.2.2.2.1
          · exact absurd ⟨vid, entries, hid, hv, ht, he⟩ hne
        | transcriptsDisabled =>
          simp only [extract_text_from_youtube, hid, hv, if_neg hv, ht]
          exact tag_prefix_sentinels.2.2.2.2.1
        | noTranscriptFound =>
          simp only [extract_text_from_youtube, hid, hv, if_neg hv, ht]
          exact tag_prefix_sentinels.2.2.2.2.2.1
        | otherError =>
          simp only [extract_text_from_youtube, hid, hv, if_neg hv, ht]
          exact tag_prefix_sentinels.2.2.2.2.2.2
  · obtain ⟨h1, h2⟩ := hclean h
    rw [h1, h2]
    exact ⟨rfl, rfl⟩

/-- The sentinel convention at concrete inputs: a failed scrape is
`[Extractor`-prefixed, the scrape sentinel cleans to the empty string,
and with it in the URL slot the pasted text wins the precedence chain. -/
theorem extractor_failures_are_sentinels_witness :
    extractorTag <+:
      extract_text_from_url (fun _ => .exn) "https://example.com".data ∧
    clean_url_text failedScrapeSentinel = [] ∧
    final_input [] (clean_url_text failedScrapeSentinel) [] "pasted".data =
      final_input [] [] [] "pasted".data :=
  ⟨(extractor_failures_are_sentinels (fun _ => .exn) (fun _ => .otherError)
      "https://example.com".data failedScrapeSentinel [] [] "pasted".data).1 rfl,
   ((extractor_failures_are_sentinels (fun _ => .exn) (fun _ => .otherError)
      "https://example.com".data failedScrapeSentinel [] [] "pasted".data).2.2.2.1
      (by decide)).1,
   ((extractor_failures_are_sentinels (fun _ => .exn) (fun _ => .otherError)
      "https://example.com".data failedScrapeSentinel [] [] "pasted".data).2.2.2.2
      (by decide)).1⟩

end SummarizerApp
